import Mathlib

/-!
Verification of the casync-updater client against its specification.

The definitions below are shallow embeddings of the JavaScript sources:
* `src/config/casync.js` — the subprocess wrapper (`make`, `extract`,
  `digest`, `mtree`);
* `src/config/client.js` — the update client (`runCycle`, `extract`,
  `makeBackup`, `isEmptyDir`, `dirExists`, `execTriggers`, `execStartup`).

Subprocess invocations, filesystem queries and promise outcomes are passed
in as explicit data (an `ExecOutcome`, an abstract `FS`, an
`Except String String` outcome), so that every function below is the pure
decision logic of the corresponding JavaScript function.
-/

namespace CasyncUpdater

/-! ## Subprocess model (`child_process.exec`, promisified) -/

/-- Result of one subprocess run: exit code plus captured output channels. -/
structure ExecOutcome where
  exitCode : Nat
  stdout : String
  stderr : String
deriving DecidableEq, Repr

/-- `util.promisify(exec)`: the promise resolves with `(stdout, stderr)`
exactly when the exit code is zero, and rejects otherwise. -/
def execP (o : ExecOutcome) : Except String (String × String) :=
  if o.exitCode = 0 then Except.ok (o.stdout, o.stderr)
  else Except.error ("Command failed with exit code " ++ toString o.exitCode)

/-- Whether an `Except` outcome is a rejection. -/
def isFailure {α : Type} : Except String α → Bool
  | Except.error _ => true
  | Except.ok _ => false

/-! ## `casync.js` operation wrappers

Each wrapper receives the outcome of the subprocess run(s) it performs
and computes the promise result exactly as `casync.js` does. The
`writeFile` side effects of `make` (checksum and mtree sidecar files) do
not influence the returned promise and are not modelled. -/

/-- `casync.mtree` (casync.js): rejects on non-empty stderr, resolves
stdout when non-empty, otherwise resolves `undefined` (here `none`). -/
def casyncMtree (o : ExecOutcome) : Except String (Option String) :=
  match execP o with
  | Except.error e => Except.error e
  | Except.ok (out, err) =>
    if err != "" then Except.error err
    else if out != "" then Except.ok (some out)
    else Except.ok none

/-- `casync.extract` (casync.js): rejects on non-empty stderr, resolves
stdout when non-empty, otherwise resolves `undefined`. -/
def casyncExtract (o : ExecOutcome) : Except String (Option String) :=
  match execP o with
  | Except.error e => Except.error e
  | Except.ok (out, err) =>
    if err != "" then Except.error err
    else if out != "" then Except.ok (some out)
    else Except.ok none

/-- `casync.make` (casync.js): rejects on non-empty stderr; otherwise the
checksum is the trimmed stdout, the mtree pass runs, and the checksum is
resolved only if the mtree pass did not reject. -/
def casyncMake (makeRun mtreeRun : ExecOutcome) : Except String String :=
  match execP makeRun with
  | Except.error e => Except.error e
  | Except.ok (out, err) =>
    if err != "" then Except.error err
    else
      match casyncMtree mtreeRun with
      | Except.error e => Except.error e
      | Except.ok _ => Except.ok out.trim

/-- JavaScript truthiness of a possibly-`undefined` string: `undefined`
and the empty string are falsy. -/
def optStrTruthy : Option String → Bool
  | none => false
  | some s => s != ""

/-- `casync.digest` (casync.js): if the `.cks` sidecar file read back a
truthy string, resolve it without invoking the subprocess; otherwise run
`casync digest` and resolve its trimmed stdout — stderr is never
inspected, so only a nonzero exit code rejects. -/
def casyncDigest (sidecar : Option String) (o : ExecOutcome) : Except String String :=
  if optStrTruthy sidecar then Except.ok (sidecar.getD "")
  else
    match execP o with
    | Except.error e => Except.error e
    | Except.ok (out, _) => Except.ok out.trim

/-! ## `client.js` cycle decision logic -/

/-- JavaScript strict inequality `!==` between two possibly-`undefined`
strings: two `undefined`s are equal; `undefined` differs from any string. -/
def optStrNe : Option String → Option String → Bool
  | none, none => false
  | none, some _ => true
  | some _, none => true
  | some a, some b => a != b

/-- Inputs of one `runCycle` call (client.js): the digest results for the
source and backup replicas (`none` = digest rejected) and the promise
outcomes the `extract` / `extractBackup` / `makeBackup` steps would have
if attempted. `hasBackupIndex` is the truthiness of `backupIndex`. -/
structure ClientEnv where
  sourceDigest : Option String
  backupDigest : Option String
  hasBackupIndex : Bool
  extractOutcome : Except String String
  extractBackupOutcome : Except String String
  makeBackupOutcome : Except String String
deriving Repr

/-- client.js line 140: `sourceChecksum && sourceChecksum !== checksum[dstPath]`. -/
def srcCond (env : ClientEnv) (cache0 : Option String) : Bool :=
  optStrTruthy env.sourceDigest && optStrNe env.sourceDigest cache0

/-- client.js lines 167-168: `!sourceChecksum && backupChecksum &&
checksum[dstPath] && checksum[dstPath] !== backupChecksum`. -/
def backupRestoreCond (env : ClientEnv) (cache0 : Option String) : Bool :=
  !(optStrTruthy env.sourceDigest) && optStrTruthy env.backupDigest &&
    optStrTruthy cache0 && optStrNe cache0 env.backupDigest

/-- Effect of the `extract`/`extractBackup` promise outcome on the cached
checksum (client.js lines 150-161 and 169-180): a truthy resolved value
replaces the cache entry, a falsy resolved value leaves it unchanged, and
a rejection deletes it (`delete checksum[dstPath]`). -/
def applyExtract : Except String String → Option String → Option String
  | Except.ok c, cache0 => if c == "" then cache0 else some c
  | Except.error _, _ => none

/-- Observable outcome of one `runCycle` call: the new cached destination
checksum, and which of the three actions were attempted. `ranTriggers`
records that `execTriggers` was reached (it is called only inside the
extract-from-source branch). -/
structure CycleOut where
  cache : Option String
  extracted : Bool
  backupRestored : Bool
  backupSaved : Bool
  ranTriggers : Bool
deriving Repr, DecidableEq

/-- client.js line 184: `backupIndex && checksum[dstPath] &&
backupChecksum !== checksum[dstPath]`, evaluated on the updated cache. -/
def backupSaveCond (env : ClientEnv) (cache1 : Option String) : Bool :=
  env.hasBackupIndex && optStrTruthy cache1 && optStrNe env.backupDigest cache1

/-- `runCycle` (client.js lines 118-192), as a function of the cycle
inputs and the cached destination checksum `checksum[dstPath]`. -/
def runCycle (env : ClientEnv) (cache0 : Option String) : CycleOut :=
  if srcCond env cache0 then
    let cache1 := applyExtract env.extractOutcome cache0
    { cache := cache1, extracted := true, backupRestored := false,
      backupSaved := backupSaveCond env cache1, ranTriggers := true }
  else if backupRestoreCond env cache0 then
    let cache1 := applyExtract env.extractBackupOutcome cache0
    { cache := cache1, extracted := false, backupRestored := true,
      backupSaved := backupSaveCond env cache1, ranTriggers := false }
  else
    { cache := cache0, extracted := false, backupRestored := false,
      backupSaved := backupSaveCond env cache0, ranTriggers := false }

/-- A checksum record as described by the specification: an opaque
content-hash string plus a timestamp. -/
structure ChecksumRecord where
  checksum : String
  timestamp : Nat
deriving DecidableEq, Repr

/-- Modelled from the spec (§4.2 rule 1), for refinement comparison with
the code's `srcCond`: extract from source iff the source is available AND
(destination unavailable OR checksums differ) AND (destination
unavailable OR source timestamp strictly greater). -/
def specExtractFromSource (src dst : Option ChecksumRecord) : Bool :=
  match src, dst with
  | none, _ => false
  | some _, none => true
  | some s, some d => (s.checksum != d.checksum) && decide (s.timestamp > d.timestamp)

/-! ## Triggers and startup actions (`execTriggers`, `execStartup`)

An absent or non-array `paths`/`actions`/`startup` field makes the
corresponding JavaScript guard fail exactly like an empty array does, so
list fields are modelled as `List String` (with `Option` for the
`diff`/`triggers`/`startup` values that can be `undefined`). Shell
execution is modelled by an oracle `ok : String → Bool` giving each
command's success; the trace records every command actually passed to
`execSync`, in order, with its outcome. -/

/-- One trigger rule: relative paths to watch and commands to run. -/
structure Trigger where
  paths : List String
  actions : List String
deriving DecidableEq, Repr

/-- client.js line 320: the guard requiring `paths` and `actions` to be
non-empty arrays. -/
def triggerGuard (t : Trigger) : Bool :=
  decide (t.paths.length > 0) && decide (t.actions.length > 0)

/-- The match-finding loop of `execTriggers` (client.js lines 322-327),
on state `(match, found)`: the loop exits when `match` becomes true, but
its body assigns `found = diff.includes(trigger.paths[i])` — `match` is
never assigned, so the loop always visits every path. -/
def matchLoop (diff : List String) : List String → Bool × Bool → Bool × Bool
  | [], st => st
  | p :: ps, (m, f) =>
    if m then (m, f) else matchLoop diff ps (m, diff.contains p)

/-- The value of `match` after the loop, starting from
`let match = false`. -/
def findMatch (diff : List String) (paths : List String) : Bool :=
  (matchLoop diff paths (false, false)).1

/-- Process-global action state: the `tActions` dedup ledger plus the
trace of executed commands (command, success). -/
structure ActState where
  tActions : List String
  trace : List (String × Bool)
deriving DecidableEq, Repr

/-- One trigger action (client.js lines 330-341): the command is put into
the `tActions` ledger, then handed to `execSync`; a throwing command is
caught and logged, leaving the ledger entry in place. -/
def runAction (ok : String → Bool) (st : ActState) (a : String) : ActState :=
  { tActions := a :: st.tActions, trace := st.trace ++ [(a, ok a)] }

/-- Processing of one trigger (client.js lines 319-343): when the guard
holds, the match loop runs and — as in the source, which never reads
`match` — every action executes unconditionally. -/
def execTrigger (ok : String → Bool) (diff : List String) (st : ActState)
    (t : Trigger) : ActState :=
  if triggerGuard t then
    let _unusedMatch := findMatch diff t.paths
    t.actions.foldl (runAction ok) st
  else st

/-- `execTriggers` (client.js lines 317-345): requires both `diff` and
`triggers` to be defined (an empty array is truthy), then processes the
triggers in order. -/
def execTriggers (ok : String → Bool) (diff : Option (List String))
    (triggers : Option (List Trigger)) (st : ActState) : ActState :=
  match diff, triggers with
  | some d, some ts => ts.foldl (execTrigger ok d) st
  | _, _ => st

/-- `execStartup` (client.js lines 351-367): runs each startup command
unless it is already in the `tActions` ledger; startup commands are not
themselves added to the ledger. -/
def execStartup (ok : String → Bool) (startup : Option (List String))
    (st : ActState) : ActState :=
  match startup with
  | some l =>
    l.foldl
      (fun s a =>
        if s.tActions.contains a then s
        else { s with trace := s.trace ++ [(a, ok a)] })
      st
  | none => st

/-- The process-level first cycle's action phase (client.js lines 88-91):
`execTriggers` from the first `runCycle`, then `execStartup`, starting
from the empty ledger. -/
def firstCycleActions (ok : String → Bool) (diff : Option (List String))
    (triggers : Option (List Trigger)) (startup : Option (List String)) : ActState :=
  execStartup ok startup
    (execTriggers ok diff triggers { tActions := [], trace := [] })

/-- The actions `execTriggers` hands to `execSync`, in order: the
concatenated action lists of the triggers passing the guard. -/
def attemptedActions : List Trigger → List String
  | [] => []
  | t :: ts => (if triggerGuard t then t.actions else []) ++ attemptedActions ts

/-- Occurrences of a command in a list of commands. -/
def countStr (a : String) (l : List String) : Nat :=
  (l.filter (fun x => x == a)).length

/-- Number of executions of command `a` recorded in the trace. -/
def execCount (a : String) (st : ActState) : Nat :=
  (st.trace.filter (fun p => p.1 == a)).length

/-! ## `makeBackup` and its filesystem preconditions -/

/-- Abstract filesystem: `exists0 p` is `fs.existsSync(p)`, and
`readdir p` is `fs.readdirSync(p)` with `none` for a thrown error
(nonexistent or unreadable path). -/
structure FS where
  exists0 : String → Bool
  readdir : String → Option (List String)

/-- `p.endsWith('/')`: whether the last character is a slash. -/
def endsWithSlash (p : String) : Bool :=
  match p.data.getLast? with
  | some c => c == '/'
  | none => false

/-- `dirExists` (client.js lines 199-204): appends a trailing slash when
missing and asks `fs.existsSync`. -/
def dirExists (fs : FS) (p : String) : Bool :=
  fs.exists0 (if endsWithSlash p then p else p ++ "/")

/-- `isEmptyDir` (client.js lines 211-223): an empty listing returns
true, a non-empty listing false, and a thrown `readdirSync` (missing or
unreadable path) also returns true. -/
def isEmptyDir (fs : FS) (p : String) : Bool :=
  match fs.readdir p with
  | some files => decide (files.length = 0)
  | none => true

/-- Backwards scan of Node's POSIX `path.dirname`: from index `i` down to
index 1, skip trailing slashes, then return the index of the first slash
found (the end of the dirname), if any. -/
def dirnameEnd (cs : List Char) : Nat → Bool → Option Nat
  | 0, _ => none
  | i + 1, matchedSlash =>
    if cs.get? (i + 1) = some '/' then
      if !matchedSlash then some (i + 1)
      else dirnameEnd cs i matchedSlash
    else dirnameEnd cs i false

/-- Node `path.dirname` (POSIX). -/
def jsDirname (p : String) : String :=
  match p.data with
  | [] => "."
  | c0 :: _ =>
    let cs := p.data
    let hasRoot := c0 = '/'
    match dirnameEnd cs (cs.length - 1) true with
    | none => if hasRoot then "/" else "."
    | some e =>
      if hasRoot && e == 1 then "//"
      else String.mk (cs.take e)

/-- Result of a `makeBackup` call: either the `casync.make` subprocess
was invoked (with its outcome), or the promise was rejected with a
message and the subprocess was never invoked. -/
inductive MakeBackupResult where
  | invoked (outcome : Except String String)
  | rejected (msg : String)
deriving Repr

/-- The rejection message built by `makeBackup` (client.js lines
277-281). -/
def makeBackupMsg (srcExist srcEmpty dstExist : Bool) (srcPath dstDir : String) : String :=
  (if !srcExist then "Source directory " ++ srcPath ++ " does not exist; "
   else if srcEmpty then "Source directory " ++ srcPath ++ " is empty; "
   else "") ++
  (if !dstExist then "Destination directory " ++ dstDir ++ " does not exist; "
   else "")

/-- `makeBackup` (client.js lines 260-284): checks that the source
directory exists and is non-empty and that the parent directory of the
destination index exists; invokes `casync.make` when all hold, otherwise
rejects with the assembled message. `mk` is the outcome `casync.make`
would have. -/
def makeBackup (fs : FS) (mk : Except String String) (srcPath dstIndex : String) :
    MakeBackupResult :=
  let dstDir := jsDirname dstIndex
  let srcExist := dirExists fs srcPath
  let srcEmpty := if srcExist then isEmptyDir fs srcPath else false
  let dstExist := dirExists fs dstDir
  if srcExist && !srcEmpty && dstExist then MakeBackupResult.invoked mk
  else MakeBackupResult.rejected (makeBackupMsg srcExist srcEmpty dstExist srcPath dstDir)

/-! ## Helper lemmas about the action machinery -/

theorem matchLoop_fst_false (diff : List String) (ps : List String) (f : Bool) :
    (matchLoop diff ps (false, f)).1 = false := by
  induction ps generalizing f with
  | nil => rfl
  | cons p ps ih => simpa [matchLoop] using ih (diff.contains p)

theorem findMatch_false (diff ps : List String) : findMatch diff ps = false :=
  matchLoop_fst_false diff ps false

theorem foldl_runAction_trace (ok : String → Bool) (acts : List String) (st : ActState) :
    (acts.foldl (runAction ok) st).trace = st.trace ++ acts.map (fun a => (a, ok a)) := by
  induction acts generalizing st with
  | nil => simp
  | cons a as ih => simp [runAction, ih]

theorem foldl_runAction_ledger (ok : String → Bool) (acts : List String) (st : ActState) :
    (acts.foldl (runAction ok) st).tActions = acts.reverse ++ st.tActions := by
  induction acts generalizing st with
  | nil => simp
  | cons a as ih => simp [runAction, ih]

theorem execTrigger_trace (ok : String → Bool) (d : List String) (st : ActState) (t : Trigger) :
    (execTrigger ok d st t).trace =
      st.trace ++ (if triggerGuard t then t.actions else []).map (fun a => (a, ok a)) := by
  by_cases h : triggerGuard t <;> simp [execTrigger, h, foldl_runAction_trace]

theorem execTrigger_ledger (ok : String → Bool) (d : List String) (st : ActState) (t : Trigger) :
    (execTrigger ok d st t).tActions =
      (if triggerGuard t then t.actions else []).reverse ++ st.tActions := by
  by_cases h : triggerGuard t <;> simp [execTrigger, h, foldl_runAction_ledger]

theorem foldl_execTrigger_trace (ok : String → Bool) (d : List String) (ts : List Trigger)
    (st : ActState) :
    (ts.foldl (execTrigger ok d) st).trace =
      st.trace ++ (attemptedActions ts).map (fun a => (a, ok a)) := by
  induction ts generalizing st with
  | nil => simp [attemptedActions]
  | cons t ts ih => simp [attemptedActions, ih, execTrigger_trace]

theorem foldl_execTrigger_ledger (ok : String → Bool) (d : List String) (ts : List Trigger)
    (st : ActState) :
    (ts.foldl (execTrigger ok d) st).tActions =
      (attemptedActions ts).reverse ++ st.tActions := by
  induction ts generalizing st with
  | nil => simp [attemptedActions]
  | cons t ts ih => simp [attemptedActions, ih, execTrigger_ledger]

theorem execStartup_spec (ok : String → Bool) (l : List String) (st : ActState) :
    (execStartup ok (some l) st).tActions = st.tActions ∧
    (execStartup ok (some l) st).trace =
      st.trace ++ (l.filter (fun a => !(st.tActions.contains a))).map (fun a => (a, ok a)) := by
  induction l generalizing st with
  | nil => simp [execStartup]
  | cons a as ih =>
    by_cases h : a ∈ st.tActions
    · have hst := ih st
      simp only [execStartup] at hst ⊢
      simpa [List.foldl_cons, h, List.filter_cons] using hst
    · have hst := ih { st with trace := st.trace ++ [(a, ok a)] }
      simp only [execStartup] at hst ⊢
      simpa [List.foldl_cons, h, List.filter_cons] using hst

theorem contains_iff_mem (l : List String) (a : String) : l.contains a = true ↔ a ∈ l := by
  simp [List.contains, List.elem_iff]

theorem count_pair_map (ok : String → Bool) (a : String) (l : List String) :
    ((l.map (fun x => (x, ok x))).filter (fun p => p.1 == a)).length = countStr a l := by
  induction l with
  | nil => rfl
  | cons x xs ih =>
    by_cases h : (x == a) = true <;>
      simp [countStr, List.filter_cons, h] at ih ⊢ <;> omega

theorem mem_of_countStr_pos (a : String) (l : List String) (h : 0 < countStr a l) : a ∈ l := by
  induction l with
  | nil => simp [countStr] at h
  | cons x xs ih =>
    by_cases hx : (x == a) = true
    · exact List.mem_cons.mpr (Or.inl (eq_of_beq hx).symm)
    · refine List.mem_cons.mpr (Or.inr (ih ?_))
      simpa [countStr, List.filter_cons, hx] using h

theorem countStr_filter_notmem (L : List String) (a : String) (hL : a ∈ L) (l : List String) :
    countStr a (l.filter (fun x => !(L.contains x))) = 0 := by
  induction l with
  | nil => rfl
  | cons x xs ih =>
    by_cases hx : x ∈ L
    · simpa [List.filter_cons, hx] using ih
    · have hxa : (x == a) = false := by
        cases heq : x == a with
        | false => rfl
        | true => exact absurd hL (by simpa [← eq_of_beq heq] using hx)
      simpa [List.filter_cons, hx, countStr, hxa] using ih

theorem mem_attemptedActions {a : String} {t : Trigger} {ts : List Trigger}
    (ht : t ∈ ts) (hg : triggerGuard t = true) (ha : a ∈ t.actions) :
    a ∈ attemptedActions ts := by
  induction ts with
  | nil => cases ht
  | cons t' ts ih =>
    rcases List.mem_cons.mp ht with h | h
    · subst h
      exact List.mem_append.mpr (Or.inl (by simpa [hg] using ha))
    · exact List.mem_append.mpr (Or.inr (ih h))

/-- `execTriggers` with defined `diff` and `triggers` appends exactly the
guarded triggers' actions to the trace, in order. -/
theorem execTriggers_trace (ok : String → Bool) (d : List String) (ts : List Trigger)
    (st : ActState) :
    (execTriggers ok (some d) (some ts) st).trace =
      st.trace ++ (attemptedActions ts).map (fun a => (a, ok a)) :=
  foldl_execTrigger_trace ok d ts st

/-- `execTriggers` with defined `diff` and `triggers` puts exactly the
guarded triggers' actions into the `tActions` ledger. -/
theorem execTriggers_ledger (ok : String → Bool) (d : List String) (ts : List Trigger)
    (st : ActState) :
    (execTriggers ok (some d) (some ts) st).tActions =
      (attemptedActions ts).reverse ++ st.tActions :=
  foldl_execTrigger_ledger ok d ts st

/-! ## Claim theorems -/

/-- C1: the claim states that a trigger executes its actions iff the
intersection of its paths with the diff list is non-empty, and in
particular that a trigger for `paths ["other/path"]` does not fire on the
diff `["conf/app.yaml", "readme.md"]`. The code computes the path match
into a variable it never reads (the loop body assigns the undeclared
`found` instead of `match`) and then runs every guarded trigger's actions
unconditionally: on the spec's own example, the non-matching trigger's
restart action executes even though `match` is false. -/
theorem c1_unmatched_trigger_still_executes :
    (execTriggers (fun _ => true) (some ["conf/app.yaml", "readme.md"])
        (some [{ paths := ["other/path"], actions := ["systemctl restart app"] }])
        { tActions := [], trace := [] }).trace = [("systemctl restart app", true)]
    ∧ findMatch ["conf/app.yaml", "readme.md"] ["other/path"] = false := by
  exact ⟨rfl, rfl⟩

/-- C2 counterexample: `runCycle` extracts in a state where the spec's
decision rule forbids it. The cached destination checksum is `"b"`, the
source digest `"a"`; the code extracts on this checksum difference alone,
while the spec's rule (modelled by `specExtractFromSource`), applied to
records in which the destination is available and strictly newer
(timestamp 5 against the source's 1), yields no extraction. -/
theorem c2_checksum_difference_alone_extracts :
    (runCycle
        { sourceDigest := some "a"
          backupDigest := none
          hasBackupIndex := false
          extractOutcome := Except.ok "a"
          extractBackupOutcome := Except.ok ""
          makeBackupOutcome := Except.ok "" }
        (some "b")).extracted = true
    ∧ specExtractFromSource (some { checksum := "a", timestamp := 1 })
        (some { checksum := "b", timestamp := 5 }) = false := by
  exact ⟨rfl, rfl⟩

/-- C2 (amended): `runCycle` performs the extract-from-source step exactly
when the source digest succeeded with a truthy (non-empty) checksum that
strictly differs from the cached destination checksum; the client's state
carries no timestamps, so no timestamp comparison takes part in the
decision. -/
theorem c2_extract_decision_is_checksum_only (env : ClientEnv) (cache0 : Option String) :
    (runCycle env cache0).extracted =
      (optStrTruthy env.sourceDigest && optStrNe env.sourceDigest cache0) := by
  have h : (runCycle env cache0).extracted = srcCond env cache0 := by
    unfold runCycle
    cases h : srcCond env cache0
    · cases hb : backupRestoreCond env cache0 <;> simp [h, hb]
    · simp [h]
  simpa [srcCond] using h

/-- C3 counterexample: in a cycle whose extract step rejects, the cached
destination checksum (baseline `"b"`) is not left unchanged — the catch
handler deletes it (`delete checksum[dstPath]`), so the next cycle starts
with no baseline at all. -/
theorem c3_failed_extract_deletes_cached_checksum :
    (runCycle
        { sourceDigest := some "a"
          backupDigest := none
          hasBackupIndex := false
          extractOutcome := Except.error "casync: extract failed"
          extractBackupOutcome := Except.ok ""
          makeBackupOutcome := Except.ok "" }
        (some "b")).cache = none
    ∧ (none : Option String) ≠ some "b" := by
  exact ⟨rfl, by decide⟩

/-- C3 (amended): when the extract (or backup-extract) step rejects, the
cached destination checksum entry is deleted (so the next cycle behaves
as a first run rather than retrying from the same baseline); when the
step resolves with a falsy value the cache is left unchanged; when
neither branch runs the cache is unchanged; and the `makeBackup` outcome
never affects the cache. -/
theorem c3_cache_effect_of_failures (env : ClientEnv) (cache0 : Option String) :
    (srcCond env cache0 = true → ∀ e, env.extractOutcome = Except.error e →
      (runCycle env cache0).cache = none)
    ∧ (srcCond env cache0 = true → env.extractOutcome = Except.ok "" →
      (runCycle env cache0).cache = cache0)
    ∧ (srcCond env cache0 = false → backupRestoreCond env cache0 = true →
      ∀ e, env.extractBackupOutcome = Except.error e → (runCycle env cache0).cache = none)
    ∧ (srcCond env cache0 = false → backupRestoreCond env cache0 = false →
      (runCycle env cache0).cache = cache0)
    ∧ (∀ o, (runCycle { env with makeBackupOutcome := o } cache0).cache =
        (runCycle env cache0).cache) := by
  refine ⟨?_, ?_, ?_, ?_, ?_⟩
  · intro h e he
    simp [runCycle, h, applyExtract, he]
  · intro h he
    simp [runCycle, h, applyExtract, he]
  · intro h hb e he
    simp [runCycle, h, hb, applyExtract, he]
  · intro h hb
    simp [runCycle, h, hb]
  · intro o
    cases env
    rfl

/-- C3 witness: the amended theorem applied to a concrete cycle with a
rejecting extract step and baseline `"b"`. -/
theorem c3_witness :
    (runCycle
        { sourceDigest := some "a"
          backupDigest := none
          hasBackupIndex := false
          extractOutcome := Except.error "boom"
          extractBackupOutcome := Except.ok ""
          makeBackupOutcome := Except.ok "" }
        (some "b")).cache = none :=
  (c3_cache_effect_of_failures _ _).1 (by decide) "boom" rfl

/-- C4 counterexample: with equal available source and destination
checksums `"c"` but a stale backup checksum `"b"`, the cycle is not a
complete no-op — it performs a backup save (while indeed not
extracting). -/
theorem c4_equal_checksums_still_save_backup :
    (runCycle
        { sourceDigest := some "c"
          backupDigest := some "b"
          hasBackupIndex := true
          extractOutcome := Except.ok ""
          extractBackupOutcome := Except.ok ""
          makeBackupOutcome := Except.ok "bk" }
        (some "c")).backupSaved = true
    ∧ (runCycle
        { sourceDigest := some "c"
          backupDigest := some "b"
          hasBackupIndex := true
          extractOutcome := Except.ok ""
          extractBackupOutcome := Except.ok ""
          makeBackupOutcome := Except.ok "bk" }
        (some "c")).extracted = false := by
  exact ⟨rfl, rfl⟩

/-- C4 (amended): for equal available source and destination checksums,
one cycle performs no extraction into the destination and no backup
restore, and leaves the cache unchanged; a backup save still occurs
exactly when a backup index is configured and the backup checksum differs
from the cached destination checksum. -/
theorem c4_equal_checksums_no_extract (env : ClientEnv) (s : String)
    (hs : s ≠ "") (hsrc : env.sourceDigest = some s) :
    (runCycle env (some s)).extracted = false
    ∧ (runCycle env (some s)).backupRestored = false
    ∧ (runCycle env (some s)).cache = some s
    ∧ (runCycle env (some s)).backupSaved =
        (env.hasBackupIndex && optStrNe env.backupDigest (some s)) := by
  have hsrcCond : srcCond env (some s) = false := by
    simp [srcCond, hsrc, optStrNe]
  have hs' : (s != "") = true := by simp [hs]
  have hrestore : backupRestoreCond env (some s) = false := by
    simp [backupRestoreCond, hsrc, optStrTruthy, hs']
  simp [runCycle, hsrcCond, hrestore, backupSaveCond, optStrTruthy, hs', Bool.and_assoc]

/-- C4 witness: the amended theorem applied to a concrete cycle with
source and destination both at `"c"` and backup at `"b"`. -/
theorem c4_witness :
    (runCycle
        { sourceDigest := some "c"
          backupDigest := some "b"
          hasBackupIndex := true
          extractOutcome := Except.ok ""
          extractBackupOutcome := Except.ok ""
          makeBackupOutcome := Except.ok "" }
        (some "c")).extracted = false :=
  (c4_equal_checksums_no_extract _ "c" (by decide) rfl).1

/-- C5: when the source digest failed (`undefined` source checksum) and
the backup checksum equals the cached destination checksum, the cycle
performs no backup-to-destination extraction. -/
theorem c5_no_spurious_backup_restore (env : ClientEnv) (c : String)
    (hsrc : env.sourceDigest = none) (hb : env.backupDigest = some c) :
    (runCycle env (some c)).backupRestored = false := by
  have h1 : srcCond env (some c) = false := by simp [srcCond, hsrc, optStrTruthy]
  have h2 : backupRestoreCond env (some c) = false := by
    simp [backupRestoreCond, hb, optStrNe]
  simp [runCycle, h1, h2]

/-- C5 witness: the theorem applied to a concrete cycle with an
unavailable source and backup checksum equal to the cached destination
checksum. -/
theorem c5_witness :
    (runCycle
        { sourceDigest := none
          backupDigest := some "x"
          hasBackupIndex := true
          extractOutcome := Except.ok ""
          extractBackupOutcome := Except.ok ""
          makeBackupOutcome := Except.ok "" }
        (some "x")).backupRestored = false :=
  c5_no_spurious_backup_restore _ "x" rfl rfl

/-- C6 counterexample: `casync.digest` resolves the trimmed stdout of a
zero-exit subprocess run even though the run produced non-empty standard
error, so non-empty stderr is not treated as failure for the digest
operation. -/
theorem c6_digest_ignores_stderr :
    isFailure (casyncDigest none
      { exitCode := 0, stdout := "abc\n", stderr := "warning: store" }) = false
    ∧ casyncDigest none { exitCode := 0, stdout := "abc\n", stderr := "warning: store" }
      = Except.ok ("abc\n".trim)
    ∧ ("warning: store" : String) ≠ "" := by
  exact ⟨rfl, rfl, by decide⟩

/-- C6 (amended): non-empty standard error makes `make`, `extract` and
`mtree` reject regardless of exit code and stdout, but `digest`, when it
invokes the subprocess, never inspects stderr: it resolves the trimmed
stdout whenever the exit code is zero. -/
theorem c6_stderr_rejects_except_digest :
    (∀ mo mt : ExecOutcome, mo.stderr ≠ "" → isFailure (casyncMake mo mt) = true)
    ∧ (∀ o : ExecOutcome, o.stderr ≠ "" → isFailure (casyncExtract o) = true)
    ∧ (∀ o : ExecOutcome, o.stderr ≠ "" → isFailure (casyncMtree o) = true)
    ∧ (∀ o : ExecOutcome, o.exitCode = 0 → casyncDigest none o = Except.ok o.stdout.trim) := by
  refine ⟨?_, ?_, ?_, ?_⟩
  · intro mo mt h
    by_cases h0 : mo.exitCode = 0 <;> simp [casyncMake, execP, h0, isFailure, h]
  · intro o h
    by_cases h0 : o.exitCode = 0 <;> simp [casyncExtract, execP, h0, isFailure, h]
  · intro o h
    by_cases h0 : o.exitCode = 0 <;> simp [casyncMtree, execP, h0, isFailure, h]
  · intro o h0
    simp [casyncDigest, execP, h0, optStrTruthy]

/-- C6 witness: the amended theorem applied to a zero-exit `make` run
with non-empty stderr (rejected) and a zero-exit `digest` run (stdout
resolved). -/
theorem c6_witness :
    isFailure (casyncMake { exitCode := 0, stdout := "chk", stderr := "boom" }
      { exitCode := 0, stdout := "", stderr := "" }) = true
    ∧ casyncDigest none { exitCode := 0, stdout := "x\n", stderr := "w" }
      = Except.ok ("x\n".trim) :=
  ⟨c6_stderr_rejects_except_digest.1 _ _ (by decide),
    c6_stderr_rejects_except_digest.2.2.2 _ rfl⟩

/-- C7: a command that occurs exactly once among the actions of the
triggers processed in the first cycle and is also listed in `startup`
executes exactly once across the whole first cycle: `execTriggers`
records it in the `tActions` ledger, and `execStartup` skips every
command already in the ledger. -/
theorem c7_shared_action_runs_once (ok : String → Bool) (d : List String)
    (ts : List Trigger) (startup : List String) (a : String)
    (hcount : countStr a (attemptedActions ts) = 1) (hstart : a ∈ startup) :
    execCount a (firstCycleActions ok (some d) (some ts) (some startup)) = 1 := by
  have hmem : a ∈ attemptedActions ts := mem_of_countStr_pos a _ (by omega)
  set st1 := execTriggers ok (some d) (some ts) { tActions := [], trace := [] } with hst1
  have hledger : a ∈ st1.tActions := by
    rw [hst1, execTriggers_ledger]
    exact List.mem_append.mpr (Or.inl (List.mem_reverse.mpr hmem))
  have htr : st1.trace = (attemptedActions ts).map (fun x => (x, ok x)) := by
    rw [hst1, execTriggers_trace]
    simp
  unfold firstCycleActions execCount
  rw [← hst1, (execStartup_spec ok startup st1).2, htr, List.filter_append,
    List.length_append, count_pair_map, count_pair_map, hcount,
    countStr_filter_notmem st1.tActions a hledger startup]

/-- C7 witness: the theorem applied to a concrete first cycle in which
the restart command appears in one firing trigger and in the startup
list. -/
theorem c7_witness :
    execCount "systemctl restart app"
      (firstCycleActions (fun _ => true) (some ["conf/app.yaml"])
        (some [{ paths := ["conf/app.yaml"], actions := ["systemctl restart app"] }])
        (some ["systemctl restart app"])) = 1 :=
  c7_shared_action_runs_once _ _ _ _ _ (by decide) (by decide)

/-- C9: every action of a trigger passing the guard is recorded in the
process-global `tActions` ledger by `execTriggers` — the execution-success
oracle `ok` is arbitrary, so this holds in particular when the action's
execution fails — and `execStartup` afterwards never executes a command
that is in the ledger (its trace contributes no further run of that
command). -/
theorem c9_action_ledgered_even_on_failure (ok ok2 : String → Bool)
    (d : List String) (ts : List Trigger) (startup : List String) (st0 : ActState)
    (t : Trigger) (a : String) (ht : t ∈ ts) (hg : triggerGuard t = true)
    (ha : a ∈ t.actions) :
    a ∈ (execTriggers ok (some d) (some ts) st0).tActions
    ∧ execCount a (execStartup ok2 (some startup) (execTriggers ok (some d) (some ts) st0))
      = execCount a (execTriggers ok (some d) (some ts) st0) := by
  have hmem := mem_attemptedActions ht hg ha
  set st1 := execTriggers ok (some d) (some ts) st0 with hst1
  have hledger : a ∈ st1.tActions := by
    rw [hst1, execTriggers_ledger]
    exact List.mem_append.mpr (Or.inl (List.mem_reverse.mpr hmem))
  refine ⟨hledger, ?_⟩
  unfold execCount
  rw [(execStartup_spec ok2 startup st1).2, List.filter_append, List.length_append,
    count_pair_map, countStr_filter_notmem st1.tActions a hledger startup]
  omega

/-- C9 witness: the theorem applied with an oracle under which every
execution fails — the failed trigger action is still in the ledger and is
still skipped by the startup pass. -/
theorem c9_witness :
    "cmd" ∈ (execTriggers (fun _ => false) (some [])
        (some [{ paths := ["p"], actions := ["cmd"] }])
        { tActions := [], trace := [] }).tActions :=
  (c9_action_ledgered_even_on_failure (fun _ => false) (fun _ => false) []
    [{ paths := ["p"], actions := ["cmd"] }] ["cmd"] { tActions := [], trace := [] }
    { paths := ["p"], actions := ["cmd"] } "cmd" (by decide) (by decide) (by decide)).1

/-- C8: `makeBackup` invokes the archive-creation subprocess iff the
source directory exists, is non-empty, and the parent directory of the
destination index exists; in every failing case it rejects with the
message naming the failed precondition(s), built exactly as in the
source. -/
theorem c8_makeBackup_preconditions (fs : FS) (mk : Except String String)
    (srcPath dstIndex : String) :
    (makeBackup fs mk srcPath dstIndex = MakeBackupResult.invoked mk ↔
      (dirExists fs srcPath = true ∧ isEmptyDir fs srcPath = false ∧
        dirExists fs (jsDirname dstIndex) = true))
    ∧ (dirExists fs srcPath = false →
        makeBackup fs mk srcPath dstIndex = MakeBackupResult.rejected
          (makeBackupMsg false false (dirExists fs (jsDirname dstIndex))
            srcPath (jsDirname dstIndex)))
    ∧ (dirExists fs srcPath = true → isEmptyDir fs srcPath = true →
        makeBackup fs mk srcPath dstIndex = MakeBackupResult.rejected
          (makeBackupMsg true true (dirExists fs (jsDirname dstIndex))
            srcPath (jsDirname dstIndex)))
    ∧ (dirExists fs srcPath = true → isEmptyDir fs srcPath = false →
        dirExists fs (jsDirname dstIndex) = false →
        makeBackup fs mk srcPath dstIndex = MakeBackupResult.rejected
          (makeBackupMsg true false false srcPath (jsDirname dstIndex))) := by
  unfold makeBackup
  cases h1 : dirExists fs srcPath <;>
    cases h2 : isEmptyDir fs srcPath <;>
    cases h3 : dirExists fs (jsDirname dstIndex) <;>
    simp [h1, h2, h3]

/-- C8 witness: the theorem's precondition direction applied to a
concrete filesystem in which all three preconditions hold, showing the
subprocess is invoked. -/
theorem c8_witness :
    makeBackup
      ⟨fun p => p == "/data/" || p == "/backup/",
        fun p => if p == "/data" then some ["app.bin"] else none⟩
      (Except.ok "cksum") "/data" "/backup/index.caidx"
      = MakeBackupResult.invoked (Except.ok "cksum") :=
  (c8_makeBackup_preconditions _ _ _ _).1.mpr (by decide)

/-- C10 counterexample: for a nonexistent source path, `isEmptyDir`
does return true, but `makeBackup` never reaches the emptiness check —
it classifies the source as nonexistent, not as empty: the rejection
message is the does-not-exist one, which differs from the is-empty one. -/
theorem c10_nonexistent_source_not_classified_empty :
    isEmptyDir ⟨fun p => p == "/backup/", fun _ => none⟩ "/nosuch" = true
    ∧ makeBackup ⟨fun p => p == "/backup/", fun _ => none⟩ (Except.ok "c")
        "/nosuch" "/backup/i"
      = MakeBackupResult.rejected (makeBackupMsg false false true "/nosuch" "/backup")
    ∧ makeBackupMsg false false true "/nosuch" "/backup"
      ≠ makeBackupMsg true true true "/nosuch" "/backup" := by
  refine ⟨rfl, rfl, ?_⟩
  decide

/-- C10 (amended): `isEmptyDir` returns true for every path whose
directory listing fails (nonexistent or unreadable); `makeBackup` rejects
an existing-but-unreadable source as empty and a nonexistent source as
nonexistent — in both cases without invoking the archive subprocess. -/
theorem c10_unreadable_source_rejected (fs : FS) (p dstIndex : String)
    (mk : Except String String) (hread : fs.readdir p = none) :
    isEmptyDir fs p = true
    ∧ (dirExists fs p = true →
        makeBackup fs mk p dstIndex = MakeBackupResult.rejected
          (makeBackupMsg true true (dirExists fs (jsDirname dstIndex))
            p (jsDirname dstIndex)))
    ∧ (dirExists fs p = false →
        makeBackup fs mk p dstIndex = MakeBackupResult.rejected
          (makeBackupMsg false false (dirExists fs (jsDirname dstIndex))
            p (jsDirname dstIndex))) := by
  have hempty : isEmptyDir fs p = true := by simp [isEmptyDir, hread]
  refine ⟨hempty, ?_, ?_⟩ <;> intro h1 <;> unfold makeBackup <;> simp [h1, hempty]

/-- C10 witness: the amended theorem applied to a filesystem in which the
source directory exists but cannot be read — `makeBackup` rejects it as
empty. -/
theorem c10_witness :
    makeBackup ⟨fun _ => true, fun _ => none⟩ (Except.ok "c") "/locked" "/b/i"
      = MakeBackupResult.rejected
        (makeBackupMsg true true
          (dirExists ⟨fun _ => true, fun _ => none⟩ (jsDirname "/b/i"))
          "/locked" (jsDirname "/b/i")) :=
  (c10_unreadable_source_rejected ⟨fun _ => true, fun _ => none⟩ "/locked" "/b/i"
    (Except.ok "c") rfl).2.1 rfl

end CasyncUpdater
